import Mathlib

/-!
Verification of the TREC inspection-report data-mapping core.

The definitions below are a shallow embedding of the Python sources
`data_mapper.py`, `trec_field_mapper.py` and `generate_trec_report.py`:
pure functions become Lean functions, Python dicts become association
lists, `None` becomes `Option.none`, and the stable `sorted(key=...)`
becomes `List.mergeSort` (a stable merge sort, like CPython's).
-/

namespace TrecReport

/-- The sentinel default string used across `data_mapper.py` for data that
cannot be resolved. -/
def sentinel : String := "Data not found in test data"

/-- `DataMapper.STATUS_MAP` from `data_mapper.py`. -/
def STATUS_MAP : List (String × String) :=
  [("I", "Inspected"), ("NI", "Not Inspected"),
   ("NP", "Not Present"), ("D", "Deficient")]

/-- `DataMapper.get_status_label` from `data_mapper.py`.
`if not status_code: return sentinel` treats both `None` and the empty
string as falsy; otherwise `STATUS_MAP.get(status_code, status_code)`
returns the label for known codes and the code itself for unknown ones. -/
def getStatusLabel (statusCode : Option String) : String :=
  match statusCode with
  | Option.none => sentinel
  | some c => if c = "" then sentinel else (STATUS_MAP.lookup c).getD c

/-- The fixed-key dict returned by `DataMapper.get_checkbox_states`
(keys `I`, `NI`, `NP`, `D`). -/
structure CheckboxStates where
  I : Bool
  NI : Bool
  NP : Bool
  D : Bool
deriving DecidableEq, Repr

/-- `states[status_code] = True` for a code that is one of the four keys. -/
def setState (s : CheckboxStates) (c : String) : CheckboxStates :=
  if c = "I" then { s with I := true }
  else if c = "NI" then { s with NI := true }
  else if c = "NP" then { s with NP := true }
  else if c = "D" then { s with D := true }
  else s

/-- `DataMapper.get_checkbox_states` from `data_mapper.py`: start from all
false; if the status is truthy and one of the four keys, set that key;
else if the status is `None`, set `I`; otherwise leave all false. -/
def getCheckboxStates (statusCode : Option String) : CheckboxStates :=
  let states : CheckboxStates := ⟨false, false, false, false⟩
  match statusCode with
  | Option.none => { states with I := true }
  | some c =>
      if c ≠ "" ∧ (c = "I" ∨ c = "NI" ∨ c = "NP" ∨ c = "D") then
        setState states c
      else states

/-- Number of true entries among the four checkbox keys. -/
def trueCount (s : CheckboxStates) : Nat :=
  (if s.I then 1 else 0) + (if s.NI then 1 else 0) +
  (if s.NP then 1 else 0) + (if s.D then 1 else 0)

/-- C1 (counterexample): for the unknown status code "X",
`get_status_label` returns the code "X" itself, not the sentinel default,
refuting the claim that any unknown code maps to the sentinel. -/
theorem c1_counterexample :
    getStatusLabel (some "X") = "X" ∧ getStatusLabel (some "X") ≠ sentinel := by
  constructor
  · rfl
  · decide

/-- C1 (amended): the four codes I, NI, NP, D map to their labels; an
absent code (`None` or the empty string) maps to the sentinel default; an
unknown non-empty code is returned unchanged (the code itself), not the
sentinel. -/
theorem c1_status_label_amended :
    getStatusLabel Option.none = sentinel ∧
    getStatusLabel (some "") = sentinel ∧
    getStatusLabel (some "I") = "Inspected" ∧
    getStatusLabel (some "NI") = "Not Inspected" ∧
    getStatusLabel (some "NP") = "Not Present" ∧
    getStatusLabel (some "D") = "Deficient" ∧
    (∀ c : String, c ≠ "" → c ∉ ["I", "NI", "NP", "D"] →
      getStatusLabel (some c) = c) := by
  refine ⟨rfl, rfl, rfl, rfl, rfl, rfl, ?_⟩
  intro c hne hmem
  simp only [List.mem_cons, List.not_mem_nil, or_false, not_or] at hmem
  obtain ⟨h1, h2, h3, h4⟩ := hmem
  have e1 : (c == "I") = false := beq_eq_false_iff_ne.mpr h1
  have e2 : (c == "NI") = false := beq_eq_false_iff_ne.mpr h2
  have e3 : (c == "NP") = false := beq_eq_false_iff_ne.mpr h3
  have e4 : (c == "D") = false := beq_eq_false_iff_ne.mpr h4
  simp [getStatusLabel, hne, STATUS_MAP, List.lookup, e1, e2, e3, e4]

/-- C1 (amended, witness): instantiation at the unknown code "XYZ". -/
theorem c1_status_label_amended_witness :
    getStatusLabel (some "XYZ") = "XYZ" :=
  c1_status_label_amended.2.2.2.2.2.2 "XYZ" (by decide) (by decide)

/-- C2: `get_checkbox_states` yields exactly one true among the four keys
when the status is absent or one of the four codes — an absent status
selecting precisely `I` (true, with `NI`, `NP`, `D` all false) — and
all four false for any unrecognized status string. -/
theorem c2_checkbox_states :
    ∀ statusCode : Option String,
      (statusCode = Option.none →
        getCheckboxStates statusCode = ⟨true, false, false, false⟩) ∧
      ((statusCode = Option.none ∨ statusCode = some "I" ∨
        statusCode = some "NI" ∨ statusCode = some "NP" ∨
        statusCode = some "D") →
        trueCount (getCheckboxStates statusCode) = 1) ∧
      (∀ s : String, statusCode = some s → s ∉ ["I", "NI", "NP", "D"] →
        trueCount (getCheckboxStates statusCode) = 0) := by
  intro statusCode
  refine ⟨?_, ?_, ?_⟩
  · rintro rfl
    rfl
  · rintro (rfl | rfl | rfl | rfl | rfl) <;> rfl
  · rintro s rfl hmem
    simp only [List.mem_cons, List.not_mem_nil, or_false, not_or] at hmem
    obtain ⟨h1, h2, h3, h4⟩ := hmem
    simp [getCheckboxStates, trueCount, h1, h2, h3, h4]

/-- C2 (witness): instantiations at the absent status (the `I` checkbox
and only it is selected), at status `D` (exactly one true) and at the
unrecognized status "bogus" (all four false). -/
theorem c2_checkbox_states_witness :
    getCheckboxStates Option.none = ⟨true, false, false, false⟩ ∧
    trueCount (getCheckboxStates (some "D")) = 1 ∧
    trueCount (getCheckboxStates (some "bogus")) = 0 :=
  ⟨(c2_checkbox_states Option.none).1 rfl,
   (c2_checkbox_states (some "D")).2.1 (by simp),
   (c2_checkbox_states (some "bogus")).2.2 "bogus" rfl (by decide)⟩

/-! ## JSON values and `DataMapper.get_field_value` -/

/-- Python values as stored in the parsed `inspection.json` tree:
`None`, booleans, integers, strings, lists and dicts. -/
inductive Json where
  | null : Json
  | bool : Bool → Json
  | int : Int → Json
  | str : String → Json
  | arr : List Json → Json
  | dict : List (String × Json) → Json

/-- The single-quote character used by Python `repr` of strings. -/
def sglQuote : Char := Char.ofNat 39

mutual

/-- Python `str()` after the `get_field_value` string check: for
non-string values this is Python's `repr`-style rendering. -/
def pyRepr : Json → String
  | Json.null => "None"
  | Json.bool true => "True"
  | Json.bool false => "False"
  | Json.int n => toString n
  | Json.str s => String.mk (sglQuote :: s.data) ++ String.mk [sglQuote]
  | Json.arr xs => "[" ++ pyReprList xs ++ "]"
  | Json.dict fs => "\x7b" ++ pyReprDict fs ++ "\x7d"

/-- Comma-separated rendering of list elements. -/
def pyReprList : List Json → String
  | [] => ""
  | [x] => pyRepr x
  | x :: y :: xs => pyRepr x ++ ", " ++ pyReprList (y :: xs)

/-- Comma-separated rendering of dict entries. -/
def pyReprDict : List (String × Json) → String
  | [] => ""
  | [(k, v)] => String.mk (sglQuote :: k.data) ++ String.mk [sglQuote] ++ ": " ++ pyRepr v
  | (k, v) :: e :: xs =>
      String.mk (sglQuote :: k.data) ++ String.mk [sglQuote] ++ ": " ++ pyRepr v ++
        ", " ++ pyReprDict (e :: xs)

end

/-- Python `dict.get`: first binding of the key, `None` if missing. -/
def lookupJson : List (String × Json) → String → Option Json
  | [], _ => Option.none
  | (k, v) :: rest, key => if k = key then some v else lookupJson rest key

/-- `DataMapper.get_field_value` from `data_mapper.py`: walk the path,
replacing `obj` by `obj.get(key)` while `obj` is a dict, returning the
default as soon as a step hits a non-dict, a missing key, or a stored
`None` (Python's `dict.get` yields `None` in the latter two cases); at
the end `str(obj) if obj is not None and obj != "" else default`. -/
def getFieldValue (obj : Json) (fieldPath : List String) (d : String) : String :=
  match fieldPath with
  | [] =>
      match obj with
      | Json.null => d
      | Json.str s => if s = "" then d else s
      | j => pyRepr j
  | key :: rest =>
      match obj with
      | Json.dict fields =>
          match lookupJson fields key with
          | Option.none => d
          | some Json.null => d
          | some v => getFieldValue v rest d
      | _ => d

/-- Specification-side path resolution: `some v` when every step of the
path goes through a dict that binds the key to a non-`None` value, and
`none` when any intermediate step is a non-mapping, a missing key, or a
stored `None`. -/
def resolvePath (obj : Json) : List String → Option Json
  | [] => some obj
  | key :: rest =>
      match obj with
      | Json.dict fields =>
          match lookupJson fields key with
          | Option.none => Option.none
          | some Json.null => Option.none
          | some v => resolvePath v rest
      | _ => Option.none

theorem getFieldValue_broken (obj : Json) (fieldPath : List String) (d : String)
    (h : resolvePath obj fieldPath = Option.none) :
    getFieldValue obj fieldPath d = d := by
  induction fieldPath generalizing obj with
  | nil => simp [resolvePath] at h
  | cons key rest ih =>
      cases obj with
      | dict fields =>
          simp only [getFieldValue, resolvePath] at *
          cases hv : lookupJson fields key with
          | none => simp [hv]
          | some v => cases v <;> simp_all
      | null => rfl
      | bool b => rfl
      | int n => rfl
      | str s => rfl
      | arr xs => rfl

theorem getFieldValue_empty (obj : Json) (fieldPath : List String) (d : String)
    (h : resolvePath obj fieldPath = some (Json.str "")) :
    getFieldValue obj fieldPath d = d := by
  induction fieldPath generalizing obj with
  | nil =>
      simp only [resolvePath, Option.some.injEq] at h
      subst h; rfl
  | cons key rest ih =>
      cases obj with
      | dict fields =>
          simp only [getFieldValue, resolvePath] at *
          cases hv : lookupJson fields key with
          | none => simp [hv]
          | some v => cases v <;> simp_all
      | null => rfl
      | bool b => rfl
      | int n => rfl
      | str s => rfl
      | arr xs => rfl

/-! ## `DataMapper.format_timestamp`

`datetime.fromtimestamp(timestamp / 1000)` followed by
`strftime("%m/%d/%Y")` is modelled with the standard proleptic-Gregorian
civil-from-days conversion (UTC).  CPython's `fromtimestamp` raises for
timestamps outside the `datetime` range and its `strftime` rejects years
below 1000; the bare `except` in the source turns every such failure into
the sentinel, which the model expresses as the explicit year-range guard
below. -/

/-- Civil date (year, month, day) from a day count shifted so that day 0
is 0000-03-01 (the day count since the Unix epoch plus 719468). -/
def civilFromDays (z : Nat) : Nat × Nat × Nat :=
  let era := z / 146097
  let doe := z % 146097
  let yoe := (doe - doe / 1460 + doe / 36524 - doe / 146096) / 365
  let y := yoe + era * 400
  let doy := doe - (365 * yoe + yoe / 4 - yoe / 100)
  let mp := (5 * doy + 2) / 153
  let d := doy - (153 * mp + 2) / 5 + 1
  let m := if mp < 10 then mp + 3 else mp - 9
  (if m ≤ 2 then y + 1 else y, m, d)

theorem civilFromDays_month_bounds (z : Nat) :
    1 ≤ (civilFromDays z).2.1 ∧ (civilFromDays z).2.1 ≤ 12 := by
  simp only [civilFromDays]
  split <;> omega

theorem civilFromDays_day_bounds (z : Nat) :
    1 ≤ (civilFromDays z).2.2 ∧ (civilFromDays z).2.2 ≤ 31 := by
  simp only [civilFromDays]
  omega

/-- Decimal digits of a natural number, most significant first. -/
def natDigits (n : Nat) : List Char :=
  if n < 10 then [Nat.digitChar n]
  else natDigits (n / 10) ++ [Nat.digitChar (n % 10)]
decreasing_by exact Nat.div_lt_self (by omega) (by omega)

/-- Two-digit zero-padded rendering, as `strftime`'s `%m` and `%d`. -/
def pad2 (n : Nat) : List Char := [Nat.digitChar (n / 10), Nat.digitChar (n % 10)]

theorem digitChar_isDigit : ∀ k, k < 10 → (Nat.digitChar k).isDigit = true := by decide

theorem natDigits_four (y : Nat) (h1 : 1000 ≤ y) (h2 : y ≤ 9999) :
    ∃ a b c d : Char, natDigits y = [a, b, c, d] ∧
      a.isDigit ∧ b.isDigit ∧ c.isDigit ∧ d.isDigit := by
  rw [natDigits]; rw [if_neg (by omega)]
  rw [natDigits]; rw [if_neg (by omega)]
  rw [natDigits]; rw [if_neg (by omega)]
  rw [natDigits]; rw [if_pos (by omega)]
  refine ⟨Nat.digitChar (y / 10 / 10 / 10), Nat.digitChar (y / 10 / 10 % 10),
    Nat.digitChar (y / 10 % 10), Nat.digitChar (y % 10), by simp, ?_, ?_, ?_, ?_⟩ <;>
    exact digitChar_isDigit _ (by omega)

/-- Shifted day count of a millisecond timestamp: the calendar day of
`timestamp / 1000` seconds since the epoch, plus 719468. -/
def shiftedDays (t : Int) : Int := Int.fdiv t 86400000 + 719468

/-- `DataMapper.format_timestamp` from `data_mapper.py`: `None` and `0`
are falsy and yield the sentinel; a timestamp whose date falls outside
the year range `[1000, 9999]` makes `fromtimestamp`/`strftime` raise,
which the bare `except` maps to the sentinel; otherwise the date is
rendered as `MM/DD/YYYY`. -/
def formatTimestamp (timestamp : Option Int) : String :=
  match timestamp with
  | Option.none => sentinel
  | some t =>
    if t = 0 then sentinel
    else if shiftedDays t < 0 then sentinel
    else if 1000 ≤ (civilFromDays (shiftedDays t).toNat).1 ∧
              (civilFromDays (shiftedDays t).toNat).1 ≤ 9999 then
      String.mk (pad2 (civilFromDays (shiftedDays t).toNat).2.1 ++
        ('/' :: pad2 (civilFromDays (shiftedDays t).toNat).2.2) ++
        ('/' :: natDigits (civilFromDays (shiftedDays t).toNat).1))
    else sentinel

/-- Checks the `MM/DD/YYYY` shape: ten characters, digits everywhere
except slashes at positions 2 and 5. -/
def isMMDDYYYY (s : String) : Bool :=
  match s.data with
  | [m1, m2, s1, d1, d2, s2, y1, y2, y3, y4] =>
      m1.isDigit && m2.isDigit && (s1 == '/') && d1.isDigit && d2.isDigit &&
      (s2 == '/') && y1.isDigit && y2.isDigit && y3.isDigit && y4.isDigit
  | _ => false

theorem formatTimestamp_shape (t : Int) :
    formatTimestamp (some t) = sentinel ∨
      isMMDDYYYY (formatTimestamp (some t)) = true := by
  simp only [formatTimestamp]
  by_cases h0 : t = 0
  · rw [if_pos h0]; exact Or.inl rfl
  rw [if_neg h0]
  by_cases hz : shiftedDays t < 0
  · rw [if_pos hz]; exact Or.inl rfl
  rw [if_neg hz]
  by_cases hy : 1000 ≤ (civilFromDays (shiftedDays t).toNat).1 ∧
      (civilFromDays (shiftedDays t).toNat).1 ≤ 9999
  · rw [if_pos hy]
    right
    obtain ⟨hy1, hy2⟩ := hy
    obtain ⟨a, b, c, d, hd, ha, hb, hc, hdd⟩ := natDigits_four _ hy1 hy2
    have hm := civilFromDays_month_bounds (shiftedDays t).toNat
    have hdb := civilFromDays_day_bounds (shiftedDays t).toNat
    simp only [pad2, hd, isMMDDYYYY, String.mk, List.append_assoc,
      List.cons_append, List.nil_append]
    simp [ha, hb, hc, hdd]
    have q1 : (civilFromDays (shiftedDays t).toNat).2.1 / 10 < 10 := by omega
    have q2 : (civilFromDays (shiftedDays t).toNat).2.1 % 10 < 10 := by omega
    have q3 : (civilFromDays (shiftedDays t).toNat).2.2 / 10 < 10 := by omega
    have q4 : (civilFromDays (shiftedDays t).toNat).2.2 % 10 < 10 := by omega
    exact ⟨⟨⟨digitChar_isDigit _ q1, digitChar_isDigit _ q2⟩,
      digitChar_isDigit _ q3⟩, digitChar_isDigit _ q4⟩
  · rw [if_neg hy]; exact Or.inl rfl

/-- C3: `get_field_value` never raises — it is total and returns the
default sentinel whenever path resolution fails (non-mapping or missing
key at any step, or an intermediate `None`) or the resolved value is the
empty string; and `format_timestamp` returns the sentinel for a missing,
zero, or unparseable timestamp and otherwise an `MM/DD/YYYY` string,
never raising. -/
theorem c3_field_and_timestamp_safety :
    (∀ (obj : Json) (fieldPath : List String) (d : String),
        resolvePath obj fieldPath = Option.none →
        getFieldValue obj fieldPath d = d) ∧
    (∀ (obj : Json) (fieldPath : List String) (d : String),
        resolvePath obj fieldPath = some (Json.str "") →
        getFieldValue obj fieldPath d = d) ∧
    formatTimestamp Option.none = sentinel ∧
    formatTimestamp (some 0) = sentinel ∧
    (∀ t : Int, formatTimestamp (some t) = sentinel ∨
        isMMDDYYYY (formatTimestamp (some t)) = true) :=
  ⟨fun obj p d h => getFieldValue_broken obj p d h,
   fun obj p d h => getFieldValue_empty obj p d h,
   rfl, rfl, fun t => formatTimestamp_shape t⟩

/-- C3 (witness): concrete instantiations — a missing key and an empty
final string both give the sentinel, and the timestamp 1700000000000 ms
(November 2023) renders in `MM/DD/YYYY` shape. -/
theorem c3_field_and_timestamp_safety_witness :
    getFieldValue (Json.dict [("a", Json.int 1)]) ["b"] sentinel = sentinel ∧
    getFieldValue (Json.dict [("a", Json.str "")]) ["a"] sentinel = sentinel ∧
    isMMDDYYYY (formatTimestamp (some 1700000000000)) = true :=
  ⟨c3_field_and_timestamp_safety.1 _ ["b"] sentinel rfl,
   c3_field_and_timestamp_safety.2.1 _ ["a"] sentinel rfl,
   (c3_field_and_timestamp_safety.2.2.2.2 1700000000000).resolve_left (by decide)⟩

/-! ## Typed inspection tree, sorting, media flattening and pagination -/


def sortByOrder {α : Type} (key : α → Int) (l : List α) : List α :=
  l.mergeSort (fun a b => decide (key a ≤ key b))

theorem sortLe_trans {α : Type} (key : α → Int) :
    ∀ a b c : α, decide (key a ≤ key b) = true → decide (key b ≤ key c) = true →
      decide (key a ≤ key c) = true := by
  intro a b c h1 h2
  simp only [decide_eq_true_eq] at *
  omega

theorem sortLe_total {α : Type} (key : α → Int) :
    ∀ a b : α, (decide (key a ≤ key b) || decide (key b ≤ key a)) = true := by
  intro a b
  simp only [Bool.or_eq_true, decide_eq_true_eq]
  omega

theorem sortByOrder_pairwise {α : Type} (key : α → Int) (l : List α) :
    (sortByOrder key l).Pairwise (fun a b => key a ≤ key b) := by
  have h := List.sorted_mergeSort (sortLe_trans key) (sortLe_total key) l
  exact h.imp (fun hab => by simpa using hab)

theorem sortByOrder_perm {α : Type} (key : α → Int) (l : List α) :
    (sortByOrder key l).Perm l :=
  List.mergeSort_perm l _

/-- Stability of the key-based stable sort: the elements having any fixed
key value appear in the sorted output exactly in their input order. -/
theorem sortByOrder_filter_key {α : Type} (key : α → Int) (l : List α) (v : Int) :
    (sortByOrder key l).filter (fun x => key x == v) =
      l.filter (fun x => key x == v) := by
  have hsub : List.Sublist (l.filter (fun x => key x == v)) (sortByOrder key l) := by
    apply List.sublist_mergeSort (sortLe_trans key) (sortLe_total key)
    · apply List.pairwise_of_forall_mem_list
      intro a ha b hb
      have hka := List.of_mem_filter ha
      have hkb := List.of_mem_filter hb
      simp only [beq_iff_eq] at hka hkb
      simp [hka, hkb]
    · exact List.filter_sublist l
  have hsub2 : List.Sublist (l.filter (fun x => key x == v))
      ((sortByOrder key l).filter (fun x => key x == v)) := by
    have h2 := hsub.filter (fun x => key x == v)
    rw [List.filter_filter] at h2
    simpa only [Bool.and_self] using h2
  have hlen : ((sortByOrder key l).filter (fun x => key x == v)).length =
      (l.filter (fun x => key x == v)).length :=
    ((sortByOrder_perm key l).filter _).length_eq
  exact (hsub2.eq_of_length hlen.symm).symm

/-- In the sorted output, an element with a strictly smaller key precedes
every element with a strictly larger key. -/
theorem sortByOrder_lt_imp_before {α : Type} (key : α → Int) (l : List α)
    (i j : Nat) (x y : α)
    (hx : (sortByOrder key l)[i]? = some x)
    (hy : (sortByOrder key l)[j]? = some y)
    (h : key x < key y) : i < j := by
  rw [List.getElem?_eq_some] at hx hy
  obtain ⟨hi, hxe⟩ := hx
  obtain ⟨hj, hye⟩ := hy
  have hp := sortByOrder_pairwise key l
  rw [List.pairwise_iff_get] at hp
  rcases Nat.lt_trichotomy i j with hlt | heq | hgt
  · exact hlt
  · exfalso
    subst heq
    rw [hxe] at hye
    subst hye
    omega
  · exfalso
    have := hp ⟨j, hj⟩ ⟨i, hi⟩ hgt
    simp only [List.get_eq_getElem, hxe, hye] at this
    omega

inductive PVal where
  | str : String → PVal
  | int : Int → PVal
  | bool : Bool → PVal
  | null : PVal
deriving DecidableEq, Repr

abbrev Rec := List (String × PVal)

structure Comment where
  text : Option String
  order : Option Int
  photos : List Rec
  videos : List Rec
deriving DecidableEq, Repr

structure LineItem where
  name : Option String
  order : Option Int
  inspectionStatus : Option String
  comments : List Comment
deriving DecidableEq, Repr

structure Section where
  name : Option String
  order : Option Int
  lineItems : List LineItem
deriving DecidableEq, Repr

structure Inspection where
  sections : List Section
deriving DecidableEq, Repr

def orderKey (o : Option Int) : Int := o.getD 0

def getSections (insp : Inspection) : List Section :=
  sortByOrder (fun s => orderKey s.order) insp.sections

def getLineItemsForSection (s : Section) : List LineItem :=
  sortByOrder (fun li => orderKey li.order) s.lineItems

def getCommentsForLineItem (li : LineItem) : List Comment :=
  sortByOrder (fun c => orderKey c.order) li.comments

/-- C7: the sorts of sections, line items and comments are stable
ascending by the order key: for every input list and every key value, the
elements carrying that key value appear in the sorted output exactly in
their original relative order. -/
theorem c7_sorting_stable :
    (∀ (insp : Inspection) (v : Int),
      (getSections insp).filter (fun s => orderKey s.order == v) =
        insp.sections.filter (fun s => orderKey s.order == v)) ∧
    (∀ (s : Section) (v : Int),
      (getLineItemsForSection s).filter (fun li => orderKey li.order == v) =
        s.lineItems.filter (fun li => orderKey li.order == v)) ∧
    (∀ (li : LineItem) (v : Int),
      (getCommentsForLineItem li).filter (fun c => orderKey c.order == v) =
        li.comments.filter (fun c => orderKey c.order == v)) :=
  ⟨fun insp v => sortByOrder_filter_key _ insp.sections v,
   fun s v => sortByOrder_filter_key _ s.lineItems v,
   fun li v => sortByOrder_filter_key _ li.comments v⟩

/-- C10: in every sort performed by the record loader (sections, line
items, comments), an entity whose order key is missing sorts with key 0:
it is placed before every sibling with a positive order value, and it is
kept rather than rejected.  Stability among the key-0 siblings themselves
is the `v = 0` instance of the stable-sort property. -/
theorem c10_missing_order_first :
    (∀ (insp : Inspection) (i j : Nat) (x y : Section),
      (getSections insp)[i]? = some x → (getSections insp)[j]? = some y →
      x.order = Option.none → 0 < orderKey y.order → i < j) ∧
    (∀ (s : Section) (i j : Nat) (x y : LineItem),
      (getLineItemsForSection s)[i]? = some x → (getLineItemsForSection s)[j]? = some y →
      x.order = Option.none → 0 < orderKey y.order → i < j) ∧
    (∀ (li : LineItem) (i j : Nat) (x y : Comment),
      (getCommentsForLineItem li)[i]? = some x → (getCommentsForLineItem li)[j]? = some y →
      x.order = Option.none → 0 < orderKey y.order → i < j) ∧
    (∀ (insp : Inspection) (s : Section), s ∈ insp.sections → s ∈ getSections insp) := by
  refine ⟨?_, ?_, ?_, ?_⟩
  · intro insp i j x y hx hy hnone hpos
    exact sortByOrder_lt_imp_before (fun (s : Section) => orderKey s.order)
      insp.sections i j x y hx hy (by simp only [orderKey, hnone, Option.getD_none] at *; omega)
  · intro s i j x y hx hy hnone hpos
    exact sortByOrder_lt_imp_before (fun (li : LineItem) => orderKey li.order)
      s.lineItems i j x y hx hy (by simp only [orderKey, hnone, Option.getD_none] at *; omega)
  · intro li i j x y hx hy hnone hpos
    exact sortByOrder_lt_imp_before (fun (c : Comment) => orderKey c.order)
      li.comments i j x y hx hy (by simp only [orderKey, hnone, Option.getD_none] at *; omega)
  · intro insp s hs
    exact ((sortByOrder_perm _ _).mem_iff).mpr hs

def getPhotosForComment (c : Comment) : List Rec := c.photos

def getVideosForComment (c : Comment) : List Rec := c.videos

def lookupRec : Rec → String → Option PVal
  | [], _ => Option.none
  | (k, v) :: rest, key => if k = key then some v else lookupRec rest key

def setKey : Rec → String → PVal → Rec
  | [], k, v => [(k, v)]
  | (k0, v0) :: rest, k, v =>
      if k0 = k then (k, v) :: rest else (k0, v0) :: setKey rest k v

def take100 (s : String) : String := String.mk (s.data.take 100)

def withContext (r : Rec) (sec : Section) (li : LineItem) (c : Comment) : Rec :=
  setKey (setKey (setKey r "section_name" (PVal.str (sec.name.getD "Unknown")))
    "line_item_name" (PVal.str (li.name.getD "Unknown")))
    "comment_text" (PVal.str (take100 (c.text.getD "")))

def getAllMedia (insp : Inspection) : List Rec × List Rec :=
  ((getSections insp).flatMap fun sec =>
      (getLineItemsForSection sec).flatMap fun li =>
        (getCommentsForLineItem li).flatMap fun c =>
          (getPhotosForComment c).map fun p => withContext p sec li c,
   (getSections insp).flatMap fun sec =>
      (getLineItemsForSection sec).flatMap fun li =>
        (getCommentsForLineItem li).flatMap fun c =>
          (getVideosForComment c).map fun v => withContext v sec li c)

structure Stats where
  total_sections : Nat
  total_line_items : Nat
  inspected : Nat
  not_inspected : Nat
  not_present : Nat
  deficient : Nat
  total_photos : Nat
  total_videos : Nat
deriving DecidableEq, Repr

def getSummaryStats (insp : Inspection) : Stats :=
  let sections := getSections insp
  { total_sections := sections.length
  , total_line_items := (sections.map fun s => (getLineItemsForSection s).length).sum
  , inspected := (sections.map fun s => (getLineItemsForSection s).countP
      fun li => li.inspectionStatus == some "I").sum
  , not_inspected := (sections.map fun s => (getLineItemsForSection s).countP
      fun li => li.inspectionStatus == some "NI").sum
  , not_present := (sections.map fun s => (getLineItemsForSection s).countP
      fun li => li.inspectionStatus == some "NP").sum
  , deficient := (sections.map fun s => (getLineItemsForSection s).countP
      fun li => li.inspectionStatus == some "D").sum
  , total_photos := (sections.map fun s => ((getLineItemsForSection s).map fun li =>
      ((getCommentsForLineItem li).map fun c => (getPhotosForComment c).length).sum).sum).sum
  , total_videos := (sections.map fun s => ((getLineItemsForSection s).map fun li =>
      ((getCommentsForLineItem li).map fun c => (getVideosForComment c).length).sum).sum).sum }

/-- C6: for every inspection tree, the number of photos flattened by
`get_all_media` equals `total_photos` of `get_summary_stats`, and the
number of flattened videos equals `total_videos`. -/
theorem c6_media_counts_agree (insp : Inspection) :
    (getAllMedia insp).1.length = (getSummaryStats insp).total_photos ∧
    (getAllMedia insp).2.length = (getSummaryStats insp).total_videos := by
  constructor <;>
    simp [getAllMedia, getSummaryStats, List.length_flatMap, List.length_map,
      Function.comp_def]

theorem lookup_setKey_self (r : Rec) (k : String) (v : PVal) :
    lookupRec (setKey r k v) k = some v := by
  induction r with
  | nil => simp [setKey, lookupRec]
  | cons e rest ih =>
      obtain ⟨k0, v0⟩ := e
      by_cases h : k0 = k
      · simp [setKey, h, lookupRec]
      · simp [setKey, h, lookupRec, ih]

theorem lookup_setKey_other (r : Rec) (k k2 : String) (v : PVal) (h : k2 ≠ k) :
    lookupRec (setKey r k v) k2 = lookupRec r k2 := by
  induction r with
  | nil => simp [setKey, lookupRec, Ne.symm h]
  | cons e rest ih =>
      obtain ⟨k0, v0⟩ := e
      by_cases h0 : k0 = k
      · subst h0
        simp [setKey, lookupRec, Ne.symm h]
      · by_cases h1 : k0 = k2
        · subst h1
          simp [setKey, h0, lookupRec, h]
        · simp [setKey, h0, lookupRec, h1, ih]

/-- Properties of a flattened media entry relative to its originating
record and owning section, line item and comment. -/
def mediaEntrySpec (insp : Inspection) (e : Rec)
    (doy : Comment → List Rec) : Prop :=
  ∃ sec ∈ getSections insp, ∃ li ∈ getLineItemsForSection sec,
    ∃ c ∈ getCommentsForLineItem li, ∃ p ∈ doy c,
      e = withContext p sec li c ∧
      lookupRec e "section_name" = some (PVal.str (sec.name.getD "Unknown")) ∧
      lookupRec e "line_item_name" = some (PVal.str (li.name.getD "Unknown")) ∧
      lookupRec e "comment_text" = some (PVal.str (take100 (c.text.getD ""))) ∧
      (take100 (c.text.getD "")).length ≤ 100 ∧
      (∀ k : String, k ≠ "section_name" → k ≠ "line_item_name" →
        k ≠ "comment_text" → lookupRec e k = lookupRec p k)

theorem withContext_spec (p : Rec) (sec : Section) (li : LineItem) (c : Comment) :
    lookupRec (withContext p sec li c) "section_name" =
      some (PVal.str (sec.name.getD "Unknown")) ∧
    lookupRec (withContext p sec li c) "line_item_name" =
      some (PVal.str (li.name.getD "Unknown")) ∧
    lookupRec (withContext p sec li c) "comment_text" =
      some (PVal.str (take100 (c.text.getD ""))) ∧
    (take100 (c.text.getD "")).length ≤ 100 ∧
    (∀ k : String, k ≠ "section_name" → k ≠ "line_item_name" →
      k ≠ "comment_text" → lookupRec (withContext p sec li c) k = lookupRec p k) := by
  unfold withContext
  refine ⟨?_, ?_, ?_, ?_, ?_⟩
  · rw [lookup_setKey_other _ _ _ _ (by decide), lookup_setKey_other _ _ _ _ (by decide),
      lookup_setKey_self]
  · rw [lookup_setKey_other _ _ _ _ (by decide), lookup_setKey_self]
  · rw [lookup_setKey_self]
  · calc (take100 (c.text.getD "")).length
        = ((c.text.getD "").data.take 100).length := String.length_mk _
      _ ≤ 100 := List.length_take_le _ _
  · intro k h1 h2 h3
    rw [lookup_setKey_other _ _ _ _ h3, lookup_setKey_other _ _ _ _ h2,
      lookup_setKey_other _ _ _ _ h1]

/-- C8: every entry produced by `get_all_media` is a copy of an original
photo/video record of some comment (reached through its owning sorted
section, line item and comment), extended with the owning section name,
line item name, and the comment text truncated to at most 100 characters;
all other keys of the record are unchanged.  The output order is the
deterministic three-level sort order, so the result is a function of the
input alone. -/
theorem c8_media_entries (insp : Inspection) (e : Rec) :
    (e ∈ (getAllMedia insp).1 → mediaEntrySpec insp e getPhotosForComment) ∧
    (e ∈ (getAllMedia insp).2 → mediaEntrySpec insp e getVideosForComment) := by
  constructor <;>
  · intro he
    simp only [getAllMedia, List.mem_flatMap, List.mem_map] at he
    obtain ⟨sec, hsec, li, hli, c, hc, p, hp, rfl⟩ := he
    exact ⟨sec, hsec, li, hli, c, hc, p, hp, rfl, withContext_spec p sec li c⟩

structure PageItem where
  sectionName : String
  name : String
  inspectionStatus : Option String
  comments : List Comment
deriving DecidableEq, Repr

def allLineItems (insp : Inspection) : List PageItem :=
  (getSections insp).flatMap fun sec =>
    (getLineItemsForSection sec).map fun li =>
      ⟨sec.name.getD "Unknown", li.name.getD "Unknown", li.inspectionStatus, li.comments⟩

def pageMappings : List (Nat × Nat × Nat) :=
  [(2, 0, 12), (3, 12, 22), (4, 22, 34), (5, 34, 41)]

def sliceItems (l : List PageItem) (a b : Nat) : List PageItem :=
  (l.drop a).take (b - a)

/-- C5: `_fill_inspection_checkboxes` assigns line items from the
globally flattened sequence (sections sorted by order, then each
section's line items sorted by order) to output pages by the fixed index
ranges page 0 → [0,12), page 1 → [12,22), page 2 → [22,34),
page 3 → [34,41); every item placed on a page is the element of the
flattened sequence at an index inside that page's range. -/
theorem c5_page_ranges :
    pageMappings.map (fun m => (m.2.1, m.2.2)) =
      [(0, 12), (12, 22), (22, 34), (34, 41)] ∧
    ∀ (insp : Inspection) (p a b : Nat), (p, a, b) ∈ pageMappings →
      ∀ (i : Nat) (it : PageItem),
        (sliceItems (allLineItems insp) a b)[i]? = some it →
          (allLineItems insp)[a + i]? = some it ∧ a + i < b := by
  refine ⟨rfl, ?_⟩
  intro insp p a b hmem i it hit
  simp only [sliceItems, List.getElem?_take] at hit
  by_cases hlt : i < b - a
  · rw [if_pos hlt] at hit
    rw [List.getElem?_drop] at hit
    exact ⟨hit, by omega⟩
  · rw [if_neg hlt] at hit
    exact absurd hit (by simp)

abbrev Doc := List (String × Bool)

def STATUS_TO_CHECKBOX_INDEX : List (String × Nat) :=
  [("I", 0), ("NI", 1), ("NP", 2), ("D", 3)]

def statusIndex (s : String) : Option Nat := STATUS_TO_CHECKBOX_INDEX.lookup s

def normalizeStatus (st : Option String) : String :=
  match st with
  | Option.none => "I"
  | some s => if s = "" ∨ statusIndex s = Option.none then "I" else s

def lookupWidget : Doc → String → Option Bool
  | [], _ => Option.none
  | (n, v) :: rest, name => if n = name then some v else lookupWidget rest name

def setWidget : Doc → String → Doc × Nat
  | [], _ => ([], 0)
  | (n, v) :: rest, name =>
      if n = name then ((n, true) :: rest, 1)
      else
        let r := setWidget rest name
        ((n, v) :: r.1, r.2)

def fillCheckboxForStatus (doc : Doc) (group : List String) (status : Option String) :
    Doc × Nat :=
  match statusIndex (normalizeStatus status) with
  | Option.none => (doc, 0)
  | some idx =>
      if h : idx < group.length then setWidget doc (group.get ⟨idx, h⟩)
      else (doc, 0)

theorem setWidget_found (doc : Doc) (name : String)
    (h : lookupWidget doc name ≠ Option.none) :
    (setWidget doc name).2 = 1 ∧
    lookupWidget (setWidget doc name).1 name = some true ∧
    (∀ n : String, n ≠ name → lookupWidget (setWidget doc name).1 n = lookupWidget doc n) := by
  induction doc with
  | nil => simp [lookupWidget] at h
  | cons e rest ih =>
      obtain ⟨n0, v0⟩ := e
      by_cases h0 : n0 = name
      · subst h0
        refine ⟨by simp [setWidget], by simp [setWidget, lookupWidget], ?_⟩
        intro n hn
        simp [setWidget, lookupWidget, Ne.symm hn]
      · have h2 : lookupWidget rest name ≠ Option.none := by
          simpa [lookupWidget, h0] using h
        obtain ⟨ih1, ih2, ih3⟩ := ih h2
        refine ⟨by simp [setWidget, h0, ih1], by simp [setWidget, h0, lookupWidget, h0, ih2], ?_⟩
        intro n hn
        by_cases h1 : n0 = n
        · subst h1
          simp [setWidget, h0, lookupWidget]
        · simp [setWidget, h0, lookupWidget, h1, ih3 n hn]

/-- C4: `fill_checkbox_for_status` treats an absent, empty or
unrecognized status as `I`; when the status's checkbox index is out of
range for the group it marks nothing and returns 0; otherwise (provided
the selected field name exists on the form) it marks exactly that one
field true, leaves every other field unchanged, and returns 1. -/
theorem c4_fill_checkbox (doc : Doc) (group : List String) (status : Option String) :
    (status = Option.none ∨ status = some "" ∨
      (∀ s, status = some s → statusIndex s = Option.none) →
      normalizeStatus status = "I") ∧
    (∀ idx, statusIndex (normalizeStatus status) = some idx →
      (group.length ≤ idx → fillCheckboxForStatus doc group status = (doc, 0)) ∧
      (∀ h : idx < group.length,
        lookupWidget doc (group.get ⟨idx, h⟩) ≠ Option.none →
          (fillCheckboxForStatus doc group status).2 = 1 ∧
          lookupWidget (fillCheckboxForStatus doc group status).1 (group.get ⟨idx, h⟩) =
            some true ∧
          (∀ n : String, n ≠ group.get ⟨idx, h⟩ →
            lookupWidget (fillCheckboxForStatus doc group status).1 n =
              lookupWidget doc n))) := by
  constructor
  · rintro (rfl | rfl | hunk)
    · rfl
    · rfl
    · cases status with
      | none => rfl
      | some s => simp [normalizeStatus, hunk s rfl]
  · intro idx hidx
    constructor
    · intro hge
      simp [fillCheckboxForStatus, hidx]
      omega
    · intro h hfound
      have : fillCheckboxForStatus doc group status = setWidget doc (group.get ⟨idx, h⟩) := by
        simp [fillCheckboxForStatus, hidx, h]
      rw [this]
      exact setWidget_found doc _ hfound

def getCheckboxGroups : List String → List (List String)
  | a :: b :: c :: d :: rest => [a, b, c, d] :: getCheckboxGroups rest
  | _ => []

def getCheckboxGroupsForPage (byPage : List (Nat × List String)) (p : Nat) :
    List (List String) :=
  match byPage.lookup p with
  | Option.none => []
  | some names => getCheckboxGroups names

/-- C9: `get_checkbox_groups` partitions a page's checkbox field names,
in discovery order, into consecutive groups of exactly 4, discarding any
trailing remainder: the number of groups is `n / 4`, every group has
length 4, and their concatenation is the first `4 * (n / 4)` names. -/
theorem c9_checkbox_grouping :
    ∀ (byPage : List (Nat × List String)) (p : Nat) (names : List String),
      byPage.lookup p = some names →
        getCheckboxGroupsForPage byPage p = getCheckboxGroups names ∧
        (getCheckboxGroups names).length = names.length / 4 ∧
        (∀ g ∈ getCheckboxGroups names, g.length = 4) ∧
        (getCheckboxGroups names).flatten = names.take (4 * (names.length / 4)) := by
  intro byPage p names hfind
  refine ⟨by simp [getCheckboxGroupsForPage, hfind], ?_⟩
  clear hfind
  induction names using getCheckboxGroups.induct with
  | case1 a b c d rest ih =>
      obtain ⟨ih1, ih2, ih3⟩ := ih
      refine ⟨?_, ?_, ?_⟩
      · simp only [getCheckboxGroups, List.length_cons, ih1]
        omega
      · intro g hg
        simp only [getCheckboxGroups, List.mem_cons] at hg
        rcases hg with rfl | hg
        · rfl
        · exact ih2 g hg
      · have harith : 4 * ((rest.length + 4) / 4) = 4 * (rest.length / 4) + 4 := by omega
        simp only [getCheckboxGroups, List.flatten_cons, List.length_cons]
        have : rest.length + 1 + 1 + 1 + 1 = rest.length + 4 := by omega
        rw [this, harith, ih3]
        rfl
  | case2 x h =>
      rcases x with _ | ⟨a, _ | ⟨b, _ | ⟨c, _ | ⟨d, rest⟩⟩⟩⟩
      · exact ⟨by simp [getCheckboxGroups], by simp [getCheckboxGroups], by simp [getCheckboxGroups]⟩
      · exact ⟨by simp [getCheckboxGroups], by simp [getCheckboxGroups], by simp [getCheckboxGroups]⟩
      · exact ⟨by simp [getCheckboxGroups], by simp [getCheckboxGroups], by simp [getCheckboxGroups]⟩
      · exact ⟨by simp [getCheckboxGroups], by simp [getCheckboxGroups], by simp [getCheckboxGroups]⟩
      · exact (h a b c d rest rfl).elim

def secA : Section := ⟨some "A", some 5, []⟩

def secB : Section := ⟨some "B", Option.none, []⟩

def inspW : Inspection := ⟨[secB, secA]⟩

/-- C10 (witness): in a two-section list where the first section has no
order key and the second has order 5, the sorted position of the
keyless section (index 0) precedes the keyed one (index 1). -/
theorem c10_missing_order_first_witness : (0 : Nat) < 1 := by
  have hs : getSections inspW = [secB, secA] := by
    unfold getSections sortByOrder
    apply List.mergeSort_of_sorted
    simp [inspW, secA, secB, orderKey]
  exact c10_missing_order_first.1 inspW 0 1 secB secA
    (by rw [hs]; rfl) (by rw [hs]; rfl) rfl (by decide)

def photoW : Rec := [("url", PVal.str "p.jpg")]

def commentW : Comment := ⟨some "Crack", some 1, [photoW], []⟩

def liW : LineItem := ⟨some "Roof", some 1, some "D", [commentW]⟩

def secW : Section := ⟨some "Structure", some 1, [liW]⟩

def inspM : Inspection := ⟨[secW]⟩

theorem sections_inspM : getSections inspM = [secW] := by
  simp [getSections, sortByOrder, inspM]

theorem lineItems_secW : getLineItemsForSection secW = [liW] := by
  simp [getLineItemsForSection, sortByOrder, secW]

theorem comments_liW : getCommentsForLineItem liW = [commentW] := by
  simp [getCommentsForLineItem, sortByOrder, liW]

/-- C8 (witness): the single photo of the one-section fixture appears in
the flattened output with its context fields. -/
theorem c8_media_entries_witness :
    mediaEntrySpec inspM (withContext photoW secW liW commentW) getPhotosForComment :=
  (c8_media_entries inspM _).1
    (by simp [getAllMedia, sections_inspM, lineItems_secW, comments_liW,
      getPhotosForComment, commentW])

def itemW : PageItem := ⟨"Structure", "Roof", some "D", [commentW]⟩

theorem allLineItems_inspM : allLineItems inspM = [itemW] := by
  unfold allLineItems
  rw [sections_inspM]
  simp only [List.flatMap_cons, List.flatMap_nil, List.append_nil, lineItems_secW]
  simp [secW, liW, itemW]

/-- C5 (witness): on the one-item fixture, the item that page range
[0,12) receives at offset 0 is the flattened sequence's element 0. -/
theorem c5_page_ranges_witness :
    (allLineItems inspM)[0 + 0]? = some itemW ∧ 0 + 0 < 12 :=
  c5_page_ranges.2 inspM 2 0 12 (by decide) 0 itemW
    (by simp [sliceItems, allLineItems_inspM])

def docW : Doc := [("cbI", false), ("cbNI", false), ("cbNP", false), ("cbD", false)]

def groupW : List String := ["cbI", "cbNI", "cbNP", "cbD"]

/-- C4 (witness): a 4-field group with status `D` marks exactly the 4th
field and returns 1; a 2-field group with status `NP` (index 2) marks
nothing and returns 0. -/
theorem c4_fill_checkbox_witness :
    (fillCheckboxForStatus docW groupW (some "D")).2 = 1 ∧
    lookupWidget (fillCheckboxForStatus docW groupW (some "D")).1 "cbD" = some true ∧
    fillCheckboxForStatus docW ["a", "b"] (some "NP") = (docW, 0) := by
  have h := ((c4_fill_checkbox docW groupW (some "D")).2 3 (by decide)).2 (by decide) (by decide)
  exact ⟨h.1, h.2.1, ((c4_fill_checkbox docW ["a", "b"] (some "NP")).2 2 (by decide)).1 (by decide)⟩

def byPageW : List (Nat × List String) := [(2, ["a", "b", "c", "d", "e"])]

/-- C9 (witness): a page with five checkboxes yields a single complete
group of four, i.e. `5 / 4` groups. -/
theorem c9_checkbox_grouping_witness :
    getCheckboxGroupsForPage byPageW 2 = getCheckboxGroups ["a", "b", "c", "d", "e"] ∧
    (getCheckboxGroups ["a", "b", "c", "d", "e"]).length = 5 / 4 := by
  have h := c9_checkbox_grouping byPageW 2 ["a", "b", "c", "d", "e"] rfl
  exact ⟨h.1, by simpa using h.2.1⟩

end TrecReport
